import Mathlib

/-!
Shallow embedding of the rocket-launcher animation engine
(`src/unnamed/part_000`, `src/unnamed/part_001`, `src/src/App.tsx`).

Numbers are modelled by `ℚ` (exact arithmetic for the decimal constants of
the source).  The per-frame wobble terms `Math.sin(Date.now() * c)` and the
`Math.random()` draws are modelled by oracle parameters: the control flow of
the source never depends on them, only the stored coordinates do.
-/

namespace Rocket

/-- The game phase.  `part_001` uses all five values; `part_000` and
`App.tsx` never enter `preparing`. -/
inductive Phase where
  | idle
  | preparing
  | shooting
  | flying
  | exploding
deriving DecidableEq, Repr

/-- The rocket sprite's pose attributes touched by the engine. -/
structure RocketSprite where
  x : ℚ
  y : ℚ
  rotation : ℚ
  visible : Bool
deriving DecidableEq, Repr

/-- The explosion `AnimatedSprite`'s attributes touched by the engine. -/
structure ExplosionSprite where
  x : ℚ
  y : ℚ
  scale : ℚ
  visible : Bool
  playingFromZero : Bool
  onCompleteSet : Bool
deriving DecidableEq, Repr

/-- The whole component state of `part_000`.  `particleSpawns`,
`ringSpawns` and `shakeCalls` record the effect units created by
`handleExplode` (origin, resp. intensity and duration).  `pendingReset`
is the absolute fire time of the `setTimeout` scheduled by the
explosion's `onComplete` callback; the source never stores the timeout
id and never calls `clearTimeout`. -/
structure App where
  width : ℚ
  height : ℚ
  phase : Phase
  rocket : RocketSprite
  explosion : ExplosionSprite
  particleSpawns : List (ℚ × ℚ)
  ringSpawns : List (ℚ × ℚ)
  shakeCalls : List (ℚ × ℚ)
  pendingReset : Option ℕ
deriving DecidableEq, Repr

/-- `initPixi` of `part_000`: rocket at `(width / 2, height - 120)`,
rotation `0`, visible; explosion hidden at scale `2`; phase `idle`. -/
def initApp (w h : ℚ) : App where
  width := w
  height := h
  phase := .idle
  rocket := { x := w / 2, y := h - 120, rotation := 0, visible := true }
  explosion := { x := 0, y := 0, scale := 2, visible := false,
                 playingFromZero := false, onCompleteSet := false }
  particleSpawns := []
  ringSpawns := []
  shakeCalls := []
  pendingReset := none

/-- `handleShoot` of `part_000` / `App.tsx`: guard
`if (gameState !== 'idle') return`, then `setGameState('shooting')`. -/
def handleShoot (s : App) : App :=
  if s.phase ≠ .idle then s else { s with phase := .shooting }

/-- `handleShoot` of `part_001`: same guard, but transitions to the
`preparing` phase. -/
def handleShootPrep (s : App) : App :=
  if s.phase ≠ .idle then s else { s with phase := .preparing }

/-- `handleExplode` of `part_000`: guard
`if (gameState !== 'shooting' && gameState !== 'flying') return`; then
create particles, rings and a `(20, 800)` screen shake at the rocket's
position, hide the rocket, place the explosion sprite on the rocket at
scale `4` playing from frame `0`, register `onComplete`, and set phase
`exploding`.  The rocket's `x`, `y`, `rotation` are never written. -/
def handleExplode (s : App) : App :=
  if s.phase ≠ .shooting ∧ s.phase ≠ .flying then s
  else
    { s with
      particleSpawns := (s.rocket.x, s.rocket.y) :: s.particleSpawns
      ringSpawns := (s.rocket.x, s.rocket.y) :: s.ringSpawns
      shakeCalls := (20, 800) :: s.shakeCalls
      rocket := { s.rocket with visible := false }
      explosion := { x := s.rocket.x, y := s.rocket.y, scale := 4,
                     visible := true, playingFromZero := true,
                     onCompleteSet := true }
      phase := .exploding }

/-- `handleExplode` of `part_001`: guard admits `preparing`, `shooting`
and `flying`; hides the rocket, places the explosion sprite on the
rocket at scale `3` playing from frame `0`, registers `onComplete`, and
sets phase `exploding` (this variant spawns no particle/ring/shake
units). -/
def handleExplodePrep (s : App) : App :=
  if s.phase ≠ .preparing ∧ s.phase ≠ .shooting ∧ s.phase ≠ .flying then s
  else
    { s with
      rocket := { s.rocket with visible := false }
      explosion := { x := s.rocket.x, y := s.rocket.y, scale := 3,
                     visible := true, playingFromZero := true,
                     onCompleteSet := true }
      phase := .exploding }

/-- `resetRocket` of `part_000`: rocket to `(width / 2, height - 20)`,
rotation `0`, visible; explosion hidden; phase `idle`.  No timer is
cancelled (the source has no `clearTimeout`), so `pendingReset` is left
untouched. -/
def resetRocket (s : App) : App :=
  { s with
    rocket := { x := s.width / 2, y := s.height - 20, rotation := 0,
                visible := true }
    explosion := { s.explosion with visible := false }
    phase := .idle }

/-- The explosion animation finishing playback at wall-clock time `now`
(ms): the `onComplete` callback of `part_000` schedules
`setTimeout(resetRocket, 2000)`. -/
def explosionComplete (now : ℕ) (s : App) : App :=
  if s.explosion.onCompleteSet then { s with pendingReset := some (now + 2000) }
  else s

/-- The host's timer queue reaching wall-clock time `now`: a pending
`setTimeout` whose fire time has arrived runs `resetRocket` (and is
consumed). -/
def fireTimers (now : ℕ) (s : App) : App :=
  match s.pendingReset with
  | some t => if t ≤ now then resetRocket { s with pendingReset := none } else s
  | none => s

/-- One tick's wobble oracle: the four `Math.sin(Date.now() * c)` samples
used by `updateAnimation` (`c` = 0.01, 0.008, 0.005, 0.004). -/
structure Wobble where
  s1 : ℚ
  s2 : ℚ
  s3 : ℚ
  s4 : ℚ

/-- `updateAnimation` of `part_000`, one frame tick.  The phase is read
once at entry (`currentState`), so at most one branch runs per tick.
Shooting: `y -= 8`, sway `x`, wobble rotation, go `flying` once
`y <= height / 2`.  Flying: `y -= 3`, sway, wobble, call `handleExplode`
once `y <= 50`. -/
def updateAnimation (w : Wobble) (s : App) : App :=
  match s.phase with
  | .shooting =>
    let r :=
      { s.rocket with
        y := s.rocket.y - 8
        x := s.rocket.x + w.s1 * 1
        rotation := w.s2 * (5 / 100) }
    let s' := { s with rocket := r }
    if r.y ≤ s.height / 2 then { s' with phase := .flying } else s'
  | .flying =>
    let r :=
      { s.rocket with
        y := s.rocket.y - 3
        x := s.rocket.x + w.s3 * 2
        rotation := w.s4 * (1 / 10) }
    let s' := { s with rocket := r }
    if r.y ≤ 50 then handleExplode s' else s'
  | _ => s

/-- `k` frame ticks driven by the wobble oracle stream `ws` (tick `i`
consumes `ws i`). -/
def ticks (ws : ℕ → Wobble) : ℕ → App → App
  | 0, s => s
  | k + 1, s => updateAnimation (ws k) (ticks ws k s)

/-- One explosion particle (`createExplosionParticles` of `part_000`):
a `Graphics` circle with position, per-tick velocity, gravity, a `life`
in `[0, 1]`, and the render attributes `alpha` and `scale` (a `Graphics`
starts with `alpha = 1` and scale `1`). -/
structure Particle where
  x : ℚ
  y : ℚ
  vx : ℚ
  vy : ℚ
  gravity : ℚ
  life : ℚ
  alpha : ℚ
  scale : ℚ
deriving DecidableEq, Repr

/-- One freshly spawned particle at the detonation origin `(x, y)`:
velocity drawn by the random oracle, `gravity = 0.3`, `life = 1.0`. -/
def mkParticle (x y vx vy : ℚ) : Particle where
  x := x
  y := y
  vx := vx
  vy := vy
  gravity := 3 / 10
  life := 1
  alpha := 1
  scale := 1

/-- The batch spawned by `createExplosionParticles(x, y)`: one particle
per random velocity draw in `vels` (the source draws `50`). -/
def spawnParticles (x y : ℚ) (vels : List (ℚ × ℚ)) : List Particle :=
  vels.map fun v => mkParticle x y v.1 v.2

/-- The in-place mutation of one live particle inside
`animateParticles`: `x += vx`, `y += vy`, `vy += gravity`,
`life -= 0.02`, then `alpha` and `scale` set to the new `life`. -/
def updateParticle (p : Particle) : Particle :=
  { p with
    x := p.x + p.vx
    y := p.y + p.vy
    vy := p.vy + p.gravity
    life := p.life - 2 / 100
    alpha := p.life - 2 / 100
    scale := p.life - 2 / 100 }

/-- One pass of `animateParticles` over the batch, with the exact
JavaScript semantics of `particles.splice(index, 1)` inside
`particles.forEach`: removing the element at the current index shifts
the next element into that index, so `forEach` never visits it on this
pass (it is kept unchanged), and iteration resumes one element later. -/
def animateStep : List Particle → List Particle
  | [] => []
  | [p] => if p.life ≤ 0 then [] else [updateParticle p]
  | p :: q :: rest =>
    if p.life ≤ 0 then q :: animateStep rest
    else updateParticle p :: animateStep (q :: rest)

/-- `animateParticles` requests another `requestAnimationFrame` exactly
when `particles.length > 0` after the pass. -/
def requestsNext (ps : List Particle) : Bool :=
  decide (0 < ps.length)

/-- `k` animation-frame passes of `animateParticles`. -/
def animateTicks : ℕ → List Particle → List Particle
  | 0, ps => ps
  | k + 1, ps => animateStep (animateTicks k ps)

/-- The life-projection of `animateStep`: the control flow of the pass
depends only on each particle's `life`. -/
def lifeStep : List ℚ → List ℚ
  | [] => []
  | [l] => if l ≤ 0 then [] else [l - 2 / 100]
  | l :: l' :: rest =>
    if l ≤ 0 then l' :: lifeStep rest
    else (l - 2 / 100) :: lifeStep (l' :: rest)

/-- `k` passes of the life-projection. -/
def lifeTicks : ℕ → List ℚ → List ℚ
  | 0, ls => ls
  | k + 1, ls => lifeStep (lifeTicks k ls)

/-- The camera-shake state of `createScreenShake` (`part_000`): the
container offset, the accumulated `shakeTime`, and whether the recursion
has stopped rescheduling (`done`). -/
structure ShakeState where
  cx : ℚ
  cy : ℚ
  shakeTime : ℚ
  done : Bool
deriving DecidableEq, Repr

/-- The state at the moment `createScreenShake` is called: container at
its original offset, `shakeTime = 0`. -/
def shakeInit (x0 y0 : ℚ) : ShakeState where
  cx := x0
  cy := y0
  shakeTime := 0
  done := false

/-- One invocation of the inner `shake` closure with intensity `I`,
duration `D`, original offset `(x0, y0)` and the tick's two
`Math.random() - 0.5` draws `r`: while `shakeTime < duration` it writes
a random offset scaled by the linearly decayed intensity and adds `16`
to `shakeTime`; otherwise it restores the original offset and does not
reschedule. -/
def shakeStep (I D x0 y0 : ℚ) (r : ℚ × ℚ) (s : ShakeState) : ShakeState :=
  if s.done then s
  else if s.shakeTime < D then
    { cx := x0 + r.1 * (I * (1 - s.shakeTime / D))
      cy := y0 + r.2 * (I * (1 - s.shakeTime / D))
      shakeTime := s.shakeTime + 16
      done := false }
  else { cx := x0, cy := y0, shakeTime := s.shakeTime, done := true }

/-- `k` shake ticks driven by the random oracle stream `r`. -/
def shakeTicks (I D x0 y0 : ℚ) (r : ℕ → ℚ × ℚ) : ℕ → ShakeState
  | 0 => shakeInit x0 y0
  | k + 1 => shakeStep I D x0 y0 (r k) (shakeTicks I D x0 y0 r k)

/-- One expanding ring of `createExplosionRings`: position, the two
scale axes and the opacity. -/
structure Ring where
  x : ℚ
  y : ℚ
  scaleX : ℚ
  scaleY : ℚ
  alpha : ℚ
deriving DecidableEq, Repr

/-- A freshly spawned ring at `(x, y)`: default scale `1`, `alpha = 1`. -/
def mkRing (x y : ℚ) : Ring where
  x := x
  y := y
  scaleX := 1
  scaleY := 1
  alpha := 1

/-- One invocation of the inner `expandRing` closure: `scale.x += 0.3`,
`scale.y += 0.3`, `alpha -= 0.03`; the ring reschedules itself while the
new `alpha > 0` and is removed from the container otherwise. -/
def ringTick : Option Ring → Option Ring
  | none => none
  | some r =>
    let r' := { r with scaleX := r.scaleX + 3 / 10, scaleY := r.scaleY + 3 / 10,
                       alpha := r.alpha - 3 / 100 }
    if 0 < r'.alpha then some r' else none

/-- The ring spawned at `(x, y)` after `k` of its own animation ticks
(`none` once removed). -/
def ringTicks (x y : ℚ) : ℕ → Option Ring
  | 0 => some (mkRing x y)
  | k + 1 => ringTick (ringTicks x y k)

/-- The spawn schedule of `createExplosionRings(x, y)`: the loop
`for (i = 0; i < 5; i++) setTimeout(..., i * 100)` creates one ring at
`(x, y)` per `i`, delayed `i * 100` ms. -/
def spawnRings (x y : ℚ) : List (ℕ × Ring) :=
  (List.range 5).map fun i => (i * 100, mkRing x y)

/-! ### The stale delayed reset of `handleExplode` (claim C5)

`handleExplode` registers `explosion.onComplete`, which schedules
`setTimeout(resetRocket, 2000)`.  The timeout id is discarded and the
source contains no `clearTimeout`, so a `Reset()` issued inside the
delay cannot cancel it.  The trace below exhibits the stale firing:
explode; animation completes at `t = 500` (reset scheduled for
`t = 2500`); the user resets at some `t < 2500` and launches again; at
`t = 2500` the stale timer still fires and tears down the new flight. -/

/-- The state just after the detonation animation completes at
`t = 500` ms: the delayed reset is now scheduled for `t = 2500`. -/
def staleBase : App :=
  explosionComplete 500 (handleExplode (handleShoot (initApp 800 600)))

/-- The user presses Reset during the 2000 ms delay. -/
def staleAfterReset : App :=
  resetRocket staleBase

/-- The user then launches a new flight, still inside the delay. -/
def staleRelaunched : App :=
  handleShoot staleAfterReset

/-- A concrete detonation batch: the 50 particles spawned at the origin
with all random velocity draws equal to `(0, 0)`. -/
def demoBatch : List Particle :=
  spawnParticles 0 0 (List.replicate 50 (0, 0))

end Rocket

namespace Rocket

/-- C1: the claim as stated is false.  From the initial state with
viewport `800 × 600` the launch pose has `y = 480` (`height - 120`),
but `Reset()` places the rocket at `y = 580` (`height - 20`), so the
pose after `Reset()` is not the launch pose, although the phase is
immediately `idle`. -/
theorem reset_pose_differs_from_launch :
    (resetRocket (handleShoot (initApp 800 600))).phase = Phase.idle ∧
    (initApp 800 600).rocket.y = 480 ∧
    (resetRocket (handleShoot (initApp 800 600))).rocket.y = 580 ∧
    (resetRocket (handleShoot (initApp 800 600))).rocket.y ≠ (initApp 800 600).rocket.y := by
  refine ⟨rfl, ?_, ?_, ?_⟩ <;>
    simp [resetRocket, handleShoot, initApp] <;> norm_num

/-- C1 (amended): `Reset()` from any state immediately yields phase
`idle`, restores `x = width / 2`, rotation `0` and visibility, and
hides the explosion — but places the rocket at `y = height - 20`,
exactly `100` above the launch pose's `y = height - 120`. -/
theorem resetRocket_idle_and_pose (s : App) :
    (resetRocket s).phase = Phase.idle ∧
    (resetRocket s).rocket =
      { x := s.width / 2, y := s.height - 20, rotation := 0, visible := true } ∧
    (resetRocket s).rocket.y = (initApp s.width s.height).rocket.y + 100 ∧
    (resetRocket s).explosion.visible = false := by
  refine ⟨rfl, rfl, ?_, rfl⟩
  show s.height - 20 = s.height - 120 + 100
  ring

/-- C5: the delayed reset scheduled by the detonation's completion
callback is not cancelled by `Reset()`.  After `Reset()` inside the
delay the timer is still pending (`some 2500`), and when it fires it
resets the flight that was launched after the `Reset()`: the phase
falls from `shooting` back to `idle` and the rocket is repositioned. -/
theorem stale_reset_fires :
    staleBase.pendingReset = some 2500 ∧
    staleAfterReset.pendingReset = some 2500 ∧
    staleRelaunched.phase = Phase.shooting ∧
    (fireTimers 2500 staleRelaunched).phase = Phase.idle ∧
    (fireTimers 2500 staleRelaunched).rocket.y = 580 := by
  simp [staleBase, staleAfterReset, staleRelaunched, explosionComplete,
        handleExplode, handleShoot, initApp, resetRocket, fireTimers]
  norm_num

/-- C9: `Launch()` (`handleShoot`) issued while the phase is not `idle`
returns the state unchanged: no phase change and no other mutation. -/
theorem handleShoot_noop_of_not_idle (s : App) (h : s.phase ≠ Phase.idle) :
    handleShoot s = s := by
  simp [handleShoot, h]

/-- Witness for `handleShoot_noop_of_not_idle`: the state right after a
launch is in phase `shooting`, and `Launch()` leaves it unchanged. -/
theorem handleShoot_noop_witness :
    (handleShoot (initApp 800 600)).phase ≠ Phase.idle ∧
    handleShoot (handleShoot (initApp 800 600)) = handleShoot (initApp 800 600) :=
  ⟨by with_unfolding_all decide,
   handleShoot_noop_of_not_idle _ (by with_unfolding_all decide)⟩

/-- C8: `Explode()` transitions to `exploding` from `shooting` or
`flying` (`part_000`), and from `preparing`, `shooting` or `flying` in
the variant that has a preparation phase (`part_001`); from `idle` or
`exploding` it returns the state completely unchanged in both
variants — no phase change, no actor mutation, no effect spawned. -/
theorem handleExplode_phase_table (s : App) :
    ((s.phase = Phase.shooting ∨ s.phase = Phase.flying) →
      (handleExplode s).phase = Phase.exploding) ∧
    ((s.phase = Phase.idle ∨ s.phase = Phase.exploding) →
      handleExplode s = s) ∧
    ((s.phase = Phase.preparing ∨ s.phase = Phase.shooting ∨ s.phase = Phase.flying) →
      (handleExplodePrep s).phase = Phase.exploding) ∧
    ((s.phase = Phase.idle ∨ s.phase = Phase.exploding) →
      handleExplodePrep s = s) := by
  refine ⟨?_, ?_, ?_, ?_⟩
  · rintro (h | h) <;> simp [handleExplode, h]
  · rintro (h | h) <;> simp [handleExplode, h]
  · rintro (h | h | h) <;> simp [handleExplodePrep, h]
  · rintro (h | h) <;> simp [handleExplodePrep, h]

/-- Witness for `handleExplode_phase_table`: exploding from the
`shooting` phase reaches `exploding`; exploding from `idle` is the
identity. -/
theorem handleExplode_phase_witness :
    (handleExplode (handleShoot (initApp 800 600))).phase = Phase.exploding ∧
    handleExplode (initApp 800 600) = initApp 800 600 :=
  ⟨(handleExplode_phase_table (handleShoot (initApp 800 600))).1
      (Or.inl (by with_unfolding_all decide)),
   (handleExplode_phase_table (initApp 800 600)).2.1
      (Or.inl (by with_unfolding_all decide))⟩

/-- C10: a valid `Explode()` never writes the rocket's `x`, `y` or
`rotation`; it only hides the rocket and sets the phase, and it places
the explosion animation, the particle batch and the ring volley at
exactly the rocket's pre-call position. -/
theorem handleExplode_keeps_pose (s : App)
    (h : s.phase = Phase.shooting ∨ s.phase = Phase.flying) :
    (handleExplode s).rocket.x = s.rocket.x ∧
    (handleExplode s).rocket.y = s.rocket.y ∧
    (handleExplode s).rocket.rotation = s.rocket.rotation ∧
    (handleExplode s).rocket.visible = false ∧
    (handleExplode s).phase = Phase.exploding ∧
    (handleExplode s).explosion.x = s.rocket.x ∧
    (handleExplode s).explosion.y = s.rocket.y ∧
    (handleExplode s).particleSpawns = (s.rocket.x, s.rocket.y) :: s.particleSpawns ∧
    (handleExplode s).ringSpawns = (s.rocket.x, s.rocket.y) :: s.ringSpawns := by
  rcases h with h | h <;> simp [handleExplode, h]

/-- Witness for `handleExplode_keeps_pose` at the state right after a
launch from a `800 × 600` viewport. -/
theorem handleExplode_keeps_pose_witness :
    (handleExplode (handleShoot (initApp 800 600))).rocket.x =
      (handleShoot (initApp 800 600)).rocket.x ∧
    (handleExplode (handleShoot (initApp 800 600))).rocket.y =
      (handleShoot (initApp 800 600)).rocket.y ∧
    (handleExplode (handleShoot (initApp 800 600))).rocket.rotation =
      (handleShoot (initApp 800 600)).rocket.rotation ∧
    (handleExplode (handleShoot (initApp 800 600))).rocket.visible = false ∧
    (handleExplode (handleShoot (initApp 800 600))).phase = Phase.exploding ∧
    (handleExplode (handleShoot (initApp 800 600))).explosion.x =
      (handleShoot (initApp 800 600)).rocket.x ∧
    (handleExplode (handleShoot (initApp 800 600))).explosion.y =
      (handleShoot (initApp 800 600)).rocket.y ∧
    (handleExplode (handleShoot (initApp 800 600))).particleSpawns =
      ((handleShoot (initApp 800 600)).rocket.x,
        (handleShoot (initApp 800 600)).rocket.y) ::
        (handleShoot (initApp 800 600)).particleSpawns ∧
    (handleExplode (handleShoot (initApp 800 600))).ringSpawns =
      ((handleShoot (initApp 800 600)).rocket.x,
        (handleShoot (initApp 800 600)).rocket.y) ::
        (handleShoot (initApp 800 600)).ringSpawns :=
  handleExplode_keeps_pose (handleShoot (initApp 800 600))
    (Or.inl (by with_unfolding_all decide))

/-- The life-projection commutes with one `animateParticles` pass: the
control flow of the pass depends only on each particle's `life`. -/
theorem animateStep_map_life (ps : List Particle) :
    (animateStep ps).map Particle.life = lifeStep (ps.map Particle.life) := by
  induction ps using animateStep.induct with
  | case1 => rfl
  | case2 p h => simp [animateStep, lifeStep, h]
  | case3 p h => simp [animateStep, lifeStep, updateParticle, if_neg h]
  | case4 p q rest h ih => simp [animateStep, lifeStep, h, ih]
  | case5 p q rest h ih =>
    simp [animateStep, lifeStep, updateParticle, if_neg h, ih]

/-- The life-projection commutes with any number of passes. -/
theorem animateTicks_map_life (n : ℕ) (ps : List Particle) :
    (animateTicks n ps).map Particle.life = lifeTicks n (ps.map Particle.life) := by
  induction n with
  | zero => rfl
  | succ k ih => simp [animateTicks, lifeTicks, ih, animateStep_map_life]

/-- Every particle of a freshly spawned batch has `life = 1`. -/
theorem spawnParticles_map_life (x y : ℚ) (vels : List (ℚ × ℚ)) :
    (spawnParticles x y vels).map Particle.life = List.replicate vels.length 1 := by
  induction vels with
  | nil => rfl
  | cons v vs ih =>
    simpa [spawnParticles, mkParticle, List.replicate_succ] using ih

/-- C2: the claim as stated is false.  After 50 ticks the batch is not
empty: all 50 particles are still present (each with `life = 0`, since
removal only happens on the tick after `life` reaches `0`), and the
unit still requests another animation callback. -/
theorem particles_not_empty_after_50 :
    (animateTicks 50 demoBatch).length = 50 ∧
    requestsNext (animateTicks 50 demoBatch) = true := by
  with_unfolding_all decide

/-- C2 (amended): a spawned batch of 50, whatever its random velocity
draws, is empty after 56 ticks — 50 decay ticks plus 6 removal sweeps,
because `splice` inside `forEach` skips the element following each
removal — and once empty the unit requests no further callbacks. -/
theorem particles_empty_after_56 (x y : ℚ) (vels : List (ℚ × ℚ))
    (h : vels.length = 50) :
    animateTicks 56 (spawnParticles x y vels) = [] ∧
    requestsNext (animateTicks 56 (spawnParticles x y vels)) = false := by
  have hmap : (animateTicks 56 (spawnParticles x y vels)).map Particle.life
      = lifeTicks 56 (List.replicate 50 1) := by
    rw [animateTicks_map_life, spawnParticles_map_life, h]
  have hnil : lifeTicks 56 (List.replicate 50 (1 : ℚ)) = [] := by
    with_unfolding_all decide
  rw [hnil] at hmap
  have hb := List.map_eq_nil_iff.mp hmap
  exact ⟨hb, by simp [hb, requestsNext]⟩

/-- Witness for `particles_empty_after_56` on the concrete batch. -/
theorem particles_empty_after_56_witness :
    animateTicks 56 (spawnParticles 0 0 (List.replicate 50 (0, 0))) = [] ∧
    requestsNext (animateTicks 56 (spawnParticles 0 0 (List.replicate 50 (0, 0)))) =
      false :=
  particles_empty_after_56 0 0 (List.replicate 50 (0, 0)) (by simp)

/-- C6: the claim as stated is false.  A particle is not removed as
soon as its life is `≤ 0`: after tick 50 every particle of the batch
has `life = 0` yet all 50 are still present, and after tick 51 — a full
tick during which their lives were already `≤ 0` — 25 of them are still
present, because removing one particle makes the `forEach` pass skip
the next. -/
theorem dead_particles_survive :
    ((animateTicks 50 demoBatch).length = 50 ∧
      ∀ p ∈ animateTicks 50 demoBatch, p.life ≤ 0) ∧
    ((animateTicks 51 demoBatch).length = 25 ∧
      ∀ p ∈ animateTicks 51 demoBatch, p.life ≤ 0) := by
  with_unfolding_all decide

/-- C6 (amended): every particle surviving a pass comes from a particle
of the batch, either by the tick update — position advanced by its
velocity, `vy` by gravity, `life` decremented by exactly `0.02` with
`alpha` and `scale` set to the new life — or unchanged when the pass
skipped it after removing its predecessor; in both cases its life never
increases, so life is monotonically non-increasing over a particle's
lifetime. -/
theorem animateStep_provenance (ps : List Particle) (q : Particle)
    (hq : q ∈ animateStep ps) :
    ∃ p ∈ ps, (q = updateParticle p ∧ q.life = p.life - 2 / 100 ∨ q = p) ∧
      q.life ≤ p.life := by
  induction ps using animateStep.induct with
  | case1 => simp [animateStep] at hq
  | case2 p h => simp [animateStep, h] at hq
  | case3 p h =>
    simp [animateStep, if_neg h] at hq
    refine ⟨p, by simp, Or.inl ⟨hq, by simp [hq, updateParticle]⟩, ?_⟩
    simp [hq, updateParticle]
    linarith
  | case4 p r rest h ih =>
    simp only [animateStep, if_pos h, List.mem_cons] at hq
    rcases hq with rfl | hq
    · exact ⟨q, by simp, Or.inr rfl, le_refl _⟩
    · obtain ⟨p', hp', hrel, hle⟩ := ih hq
      exact ⟨p', by simp [hp'], hrel, hle⟩
  | case5 p r rest h ih =>
    simp only [animateStep, if_neg h, List.mem_cons] at hq
    rcases hq with rfl | hq
    · refine ⟨p, by simp, Or.inl ⟨rfl, by simp [updateParticle]⟩, ?_⟩
      simp [updateParticle]
      linarith
    · obtain ⟨p', hp', hrel, hle⟩ := ih hq
      exact ⟨p', by simp [hp'], hrel, hle⟩

/-- Witness for `animateStep_provenance`: the sole survivor of a pass
over a one-particle batch with `life = 1`. -/
theorem animateStep_provenance_witness :
    ∃ p ∈ [mkParticle 0 0 1 1],
      (updateParticle (mkParticle 0 0 1 1) = updateParticle p ∧
          (updateParticle (mkParticle 0 0 1 1)).life = p.life - 2 / 100 ∨
        updateParticle (mkParticle 0 0 1 1) = p) ∧
      (updateParticle (mkParticle 0 0 1 1)).life ≤ p.life :=
  animateStep_provenance [mkParticle 0 0 1 1] (updateParticle (mkParticle 0 0 1 1))
    (by with_unfolding_all decide)

/-- A tick of the `shake` closure that has stopped rescheduling leaves
the state untouched. -/
theorem shakeStep_of_done (I D x0 y0 : ℚ) (rr : ℚ × ℚ) (s : ShakeState)
    (h : s.done = true) : shakeStep I D x0 y0 rr s = s := by
  simp [shakeStep, h]

/-- Once the shake has stopped, the container offset equals the
original offset. -/
theorem shakeTicks_done_restored (I D x0 y0 : ℚ) (r : ℕ → ℚ × ℚ) (k : ℕ)
    (h : (shakeTicks I D x0 y0 r k).done = true) :
    (shakeTicks I D x0 y0 r k).cx = x0 ∧ (shakeTicks I D x0 y0 r k).cy = y0 := by
  induction k with
  | zero => simp [shakeTicks, shakeInit] at h
  | succ k ih =>
    by_cases hd : (shakeTicks I D x0 y0 r k).done = true
    · rw [shakeTicks, shakeStep_of_done I D x0 y0 (r k) _ hd] at h ⊢
      exact ih h
    · simp only [Bool.not_eq_true] at hd
      rw [shakeTicks] at h ⊢
      simp only [shakeStep, hd, Bool.false_eq_true, if_false] at h ⊢
      by_cases ht : (shakeTicks I D x0 y0 r k).shakeTime < D
      · simp [ht] at h
      · simp [ht]

/-- While the shake is still rescheduling, `shakeTime` is `16` per
elapsed tick. -/
theorem shakeTicks_time_of_undone (I D x0 y0 : ℚ) (r : ℕ → ℚ × ℚ) (k : ℕ)
    (h : (shakeTicks I D x0 y0 r k).done = false) :
    (shakeTicks I D x0 y0 r k).shakeTime = 16 * k := by
  induction k with
  | zero => simp [shakeTicks, shakeInit]
  | succ k ih =>
    by_cases hd : (shakeTicks I D x0 y0 r k).done = true
    · rw [shakeTicks, shakeStep_of_done I D x0 y0 (r k) _ hd] at h
      rw [h] at hd; exact absurd hd (by simp)
    · simp only [Bool.not_eq_true] at hd
      have hk := ih hd
      rw [shakeTicks] at h ⊢
      simp only [shakeStep, hd, Bool.false_eq_true, if_false] at h ⊢
      by_cases ht : (shakeTicks I D x0 y0 r k).shakeTime < D
      · simp only [ht, if_true]
        rw [hk]; push_cast; ring
      · simp [ht] at h

/-- C4: for every intensity `I`, duration `D`, pre-shake offset
`(x0, y0)` and random stream `r`: on the first tick whose accumulated
`shakeTime` has reached `D` the offset is set back to exactly
`(x0, y0)` and the recursion stops; a stopped shake makes no further
offset writes (the state is frozen at the original offset); and the
shake does stop, no later than tick `⌈D / 16⌉ + 1`. -/
theorem createScreenShake_restores (I D x0 y0 : ℚ) (r : ℕ → ℚ × ℚ) :
    (∀ k, D ≤ (shakeTicks I D x0 y0 r k).shakeTime →
      (shakeTicks I D x0 y0 r (k + 1)).done = true ∧
      (shakeTicks I D x0 y0 r (k + 1)).cx = x0 ∧
      (shakeTicks I D x0 y0 r (k + 1)).cy = y0) ∧
    (∀ k, (shakeTicks I D x0 y0 r k).done = true →
      (shakeTicks I D x0 y0 r k).cx = x0 ∧ (shakeTicks I D x0 y0 r k).cy = y0 ∧
      shakeTicks I D x0 y0 r (k + 1) = shakeTicks I D x0 y0 r k) ∧
    (shakeTicks I D x0 y0 r ((⌈D / 16⌉).toNat + 1)).done = true := by
  have hstep : ∀ k, shakeTicks I D x0 y0 r (k + 1)
      = shakeStep I D x0 y0 (r k) (shakeTicks I D x0 y0 r k) := fun k => rfl
  have hB : ∀ k, D ≤ (shakeTicks I D x0 y0 r k).shakeTime →
      (shakeTicks I D x0 y0 r (k + 1)).done = true ∧
      (shakeTicks I D x0 y0 r (k + 1)).cx = x0 ∧
      (shakeTicks I D x0 y0 r (k + 1)).cy = y0 := by
    intro k hk
    by_cases hd : (shakeTicks I D x0 y0 r k).done = true
    · rw [hstep, shakeStep_of_done I D x0 y0 (r k) _ hd]
      obtain ⟨h1, h2⟩ := shakeTicks_done_restored I D x0 y0 r k hd
      exact ⟨hd, h1, h2⟩
    · simp only [Bool.not_eq_true] at hd
      rw [hstep]
      simp [shakeStep, hd, not_lt.mpr hk]
  refine ⟨hB, ?_, ?_⟩
  · intro k hk
    obtain ⟨h1, h2⟩ := shakeTicks_done_restored I D x0 y0 r k hk
    exact ⟨h1, h2, by rw [hstep, shakeStep_of_done I D x0 y0 (r k) _ hk]⟩
  · by_cases hd : (shakeTicks I D x0 y0 r (⌈D / 16⌉).toNat).done = true
    · rw [hstep, shakeStep_of_done I D x0 y0 _ _ hd]; exact hd
    · simp only [Bool.not_eq_true] at hd
      have htime := shakeTicks_time_of_undone I D x0 y0 r _ hd
      have hge : D ≤ (shakeTicks I D x0 y0 r (⌈D / 16⌉).toNat).shakeTime := by
        rw [htime]
        rcases le_or_lt D 0 with hD | hD
        · have hnn : (0 : ℚ) ≤ 16 * ((⌈D / 16⌉).toNat : ℚ) := by positivity
          linarith
        · have hpos : 0 < ⌈D / 16⌉ := Int.ceil_pos.mpr (by positivity)
          have hcast : ((⌈D / 16⌉).toNat : ℚ) = ((⌈D / 16⌉ : ℤ) : ℚ) := by
            exact_mod_cast Int.toNat_of_nonneg (le_of_lt hpos)
          have hle : D / 16 ≤ ((⌈D / 16⌉ : ℤ) : ℚ) := Int.le_ceil _
          rw [hcast]
          linarith
      exact (hB _ hge).1

/-- Witness for `createScreenShake_restores`: with duration `0` the
very first tick restores the offset `(3, 4)` and stops. -/
theorem createScreenShake_restores_witness :
    (shakeTicks 15 0 3 4 (fun _ => (1 / 2, 1 / 2)) 1).done = true ∧
    (shakeTicks 15 0 3 4 (fun _ => (1 / 2, 1 / 2)) 1).cx = 3 ∧
    (shakeTicks 15 0 3 4 (fun _ => (1 / 2, 1 / 2)) 1).cy = 4 :=
  (createScreenShake_restores 15 0 3 4 (fun _ => (1 / 2, 1 / 2))).1 0
    (by simp [shakeTicks, shakeInit])

/-- Closed form of one ring's evolution: after `k` ticks the ring is
still alive exactly when its decremented opacity `1 - 0.03 k` is still
positive, with scale `1 + 0.3 k`; otherwise it has been removed. -/
theorem ringTicks_eq (x y : ℚ) (k : ℕ) :
    ringTicks x y k =
      if (3 : ℚ) / 100 * k < 1 then
        some { x := x, y := y, scaleX := 1 + 3 / 10 * k, scaleY := 1 + 3 / 10 * k,
               alpha := 1 - 3 / 100 * k }
      else none := by
  induction k with
  | zero => simp [ringTicks, mkRing]
  | succ k ih =>
    rw [ringTicks, ih]
    push_cast
    by_cases hk : (3 : ℚ) / 100 * k < 1
    · rw [if_pos hk]
      by_cases hk1 : (3 : ℚ) / 100 * ((k : ℚ) + 1) < 1
      · rw [if_pos hk1]
        simp only [ringTick]
        rw [if_pos (by linarith)]
        simp only [Option.some.injEq, Ring.mk.injEq, true_and]
        refine ⟨by ring, by ring, by ring⟩
      · rw [if_neg hk1]
        simp only [ringTick]
        rw [if_neg (by linarith)]
    · rw [if_neg hk, if_neg (by intro hc; exact hk (by linarith))]
      rfl

/-- C7: `createExplosionRings(x, y)` spawns exactly 5 rings, staggered
100 ms apart, all at the detonation position `(x, y)`; each ring gains
`0.3` scale and loses `0.03` opacity per tick, stays alive exactly
while the decremented opacity is `> 0`, and is removed on the tick its
opacity reaches `≤ 0`. -/
theorem createExplosionRings_spec (x y : ℚ) :
    spawnRings x y = [(0, mkRing x y), (100, mkRing x y), (200, mkRing x y),
      (300, mkRing x y), (400, mkRing x y)] ∧
    (∀ k : ℕ, (3 : ℚ) / 100 * k < 1 →
      ringTicks x y k = some { x := x, y := y, scaleX := 1 + 3 / 10 * k,
                               scaleY := 1 + 3 / 10 * k,
                               alpha := 1 - 3 / 100 * k }) ∧
    (∀ k : ℕ, 1 ≤ (3 : ℚ) / 100 * k → ringTicks x y k = none) := by
  refine ⟨rfl, ?_, ?_⟩
  · intro k hk
    rw [ringTicks_eq, if_pos hk]
  · intro k hk
    rw [ringTicks_eq, if_neg (not_lt.mpr hk)]

/-- Witness for `createExplosionRings_spec`: a ring at `(1, 2)` is
still alive after 33 ticks (opacity `0.01`) and removed at tick 34. -/
theorem createExplosionRings_spec_witness :
    ringTicks 1 2 33 = some { x := 1, y := 2, scaleX := 109 / 10,
                              scaleY := 109 / 10, alpha := 1 / 100 } ∧
    ringTicks 1 2 34 = none := by
  constructor
  · have hr := (createExplosionRings_spec 1 2).2.1 33 (by norm_num)
    rw [hr]
    norm_num
  · exact (createExplosionRings_spec 1 2).2.2 34 (by norm_num)

/-- While fewer ticks have elapsed than needed to reach the midpoint,
the rocket stays in `shooting` and has descended `8` per tick from the
launch `y`. -/
theorem shoot_progress (w h : ℚ) (ws : ℕ → Wobble) (k : ℕ)
    (hk : 8 * (k : ℚ) < (h - 120) - h / 2) :
    (ticks ws k (handleShoot (initApp w h))).phase = Phase.shooting ∧
    (ticks ws k (handleShoot (initApp w h))).rocket.y = (h - 120) - 8 * k ∧
    (ticks ws k (handleShoot (initApp w h))).height = h := by
  induction k with
  | zero =>
    refine ⟨by simp [ticks, handleShoot, initApp], ?_, rfl⟩
    simp [ticks, handleShoot, initApp]
  | succ k ih =>
    have hk' : 8 * (k : ℚ) < (h - 120) - h / 2 := by push_cast at hk ⊢; linarith
    obtain ⟨hph, hy, hht⟩ := ih hk'
    have hstep : ticks ws (k + 1) (handleShoot (initApp w h))
        = updateAnimation (ws k) (ticks ws k (handleShoot (initApp w h))) := rfl
    rw [hstep, updateAnimation, hph]
    simp only [hy, hht]
    have hcond : ¬ ((h - 120) - 8 * (k : ℚ) - 8 ≤ h / 2) := by
      push_cast at hk
      intro hc
      linarith
    rw [if_neg hcond]
    refine ⟨rfl, ?_, rfl⟩
    push_cast
    ring

/-- C3: the claim as stated is false at viewport height `240`: there
the launch `y` (`height - 120 = 120`) already equals the midpoint, the
claimed tick count `⌈((height - 120) - height / 2) / 8⌉` is `0`, and
after `0` ticks the phase is still `shooting`, not `flying`. -/
theorem shooting_formula_fails_at_240 :
    (⌈(((240 : ℚ) - 120) - 240 / 2) / 8⌉).toNat = 0 ∧
    (ticks (fun _ => ⟨0, 0, 0, 0⟩) ((⌈(((240 : ℚ) - 120) - 240 / 2) / 8⌉).toNat)
        (handleShoot (initApp 800 240))).phase = Phase.shooting ∧
    Phase.shooting ≠ Phase.flying := by
  have h0 : (((240 : ℚ) - 120) - 240 / 2) / 8 = 0 := by norm_num
  rw [h0]
  refine ⟨by simp, ?_, by simp⟩
  simp [ticks, handleShoot, initApp]

/-- C3 (amended): provided the launch position is strictly above the
midpoint (viewport height `> 240`), the rocket reaches `flying` after
exactly `⌈((height - 120) - height / 2) / 8⌉` ticks of the `shooting`
phase: one tick earlier it is still `shooting`, and on that tick its
`y` has crossed the midpoint and the phase is `flying`. -/
theorem shooting_reaches_flying (w h : ℚ) (ws : ℕ → Wobble) (hh : 240 < h) :
    (ticks ws ((⌈((h - 120) - h / 2) / 8⌉).toNat - 1)
        (handleShoot (initApp w h))).phase = Phase.shooting ∧
    (ticks ws ((⌈((h - 120) - h / 2) / 8⌉).toNat)
        (handleShoot (initApp w h))).phase = Phase.flying ∧
    (ticks ws ((⌈((h - 120) - h / 2) / 8⌉).toNat)
        (handleShoot (initApp w h))).rocket.y ≤ h / 2 := by
  have hdpos : 0 < (h - 120) - h / 2 := by linarith
  have hcpos : 0 < ⌈((h - 120) - h / 2) / 8⌉ := Int.ceil_pos.mpr (by positivity)
  have hcastZ : (((⌈((h - 120) - h / 2) / 8⌉).toNat : ℕ) : ℤ)
      = ⌈((h - 120) - h / 2) / 8⌉ := Int.toNat_of_nonneg hcpos.le
  have hn0 : 0 < (⌈((h - 120) - h / 2) / 8⌉).toNat := by
    have hz : (0 : ℤ) < (((⌈((h - 120) - h / 2) / 8⌉).toNat : ℕ) : ℤ) := by
      rw [hcastZ]; exact hcpos
    exact_mod_cast hz
  obtain ⟨m, hm⟩ : ∃ m, (⌈((h - 120) - h / 2) / 8⌉).toNat = m + 1 :=
    ⟨(⌈((h - 120) - h / 2) / 8⌉).toNat - 1, (Nat.succ_pred_eq_of_pos hn0).symm⟩
  have hcastQ : ((m : ℚ) + 1) = ((⌈((h - 120) - h / 2) / 8⌉ : ℤ) : ℚ) := by
    rw [← hcastZ, hm]; push_cast; ring
  have hmlt : 8 * (m : ℚ) < (h - 120) - h / 2 := by
    have hlt : ((⌈((h - 120) - h / 2) / 8⌉ : ℤ) : ℚ) < ((h - 120) - h / 2) / 8 + 1 :=
      Int.ceil_lt_add_one _
    rw [← hcastQ] at hlt
    linarith
  obtain ⟨hph, hy, hht⟩ := shoot_progress w h ws m hmlt
  have hcond : (h - 120) - 8 * (m : ℚ) - 8 ≤ h / 2 := by
    have hge : ((h - 120) - h / 2) / 8 ≤ ((⌈((h - 120) - h / 2) / 8⌉ : ℤ) : ℚ) :=
      Int.le_ceil _
    rw [← hcastQ] at hge
    linarith
  have hstep : ticks ws (m + 1) (handleShoot (initApp w h))
      = updateAnimation (ws m) (ticks ws m (handleShoot (initApp w h))) := rfl
  rw [hm, Nat.add_sub_cancel, hstep, updateAnimation, hph]
  simp only [hy, hht]
  rw [if_pos hcond]
  exact ⟨by trivial, rfl, hcond⟩

/-- Witness for `shooting_reaches_flying` on an `800 × 800` viewport:
the predicted count is `⌈(680 - 400) / 8⌉ = 35` ticks. -/
theorem shooting_reaches_flying_witness :
    (ticks (fun _ => ⟨0, 0, 0, 0⟩) ((⌈(((800 : ℚ) - 120) - 800 / 2) / 8⌉).toNat - 1)
        (handleShoot (initApp 800 800))).phase = Phase.shooting ∧
    (ticks (fun _ => ⟨0, 0, 0, 0⟩) ((⌈(((800 : ℚ) - 120) - 800 / 2) / 8⌉).toNat)
        (handleShoot (initApp 800 800))).phase = Phase.flying ∧
    (ticks (fun _ => ⟨0, 0, 0, 0⟩) ((⌈(((800 : ℚ) - 120) - 800 / 2) / 8⌉).toNat)
        (handleShoot (initApp 800 800))).rocket.y ≤ 800 / 2 :=
  shooting_reaches_flying 800 800 (fun _ => ⟨0, 0, 0, 0⟩) (by norm_num)

end Rocket
